import Mathlib

/-!
Shallow embedding of the PN532 driver core (Funcoil/pn532-rs):
the frame codec and its parser state machine (`src/device/proto.rs`),
the busy-wait read strategy (`src/bus/mod.rs`), the command session
(`src/device/mod.rs`) and the tag-cursor view layer
(`src/device/tags_internal.rs`).

Bytes are modelled as `Nat` with explicit `% 256` wherever the Rust
code performs wrapping `u8` arithmetic; byte buffers are `List Nat`;
fallible operations return `Except`.
-/

namespace PN532

/-- `error.rs`: `ChecksumType`. -/
inductive ChecksumType where
  | Length
  | Data
deriving DecidableEq, Repr

/-- `error.rs`: `DataError`.  The `&'static str` description is kept as a `String`. -/
inductive DataError where
  | InvalidChecksum (ct : ChecksumType)
  | InvalidByte (b : Nat) (expected : String)
deriving DecidableEq, Repr

/-- `error.rs`: `RecvError<E>`. -/
inductive RecvError (E : Type) where
  | ReadError (e : E)
  | InvalidData (d : DataError)
  | UnexpectedEnd
deriving DecidableEq, Repr

/-- `error.rs`: `SendError<E>`. -/
inductive SendError (E : Type) where
  | WriteError (e : E)
  | TooMuchData (len : Nat)
deriving DecidableEq, Repr

/-- `error.rs`: `WaitError<E>`. -/
inductive WaitError (E : Type) where
  | OtherError (e : E)
  | Timeout
deriving DecidableEq, Repr

/-- `proto.rs` `calc_checksum`: fold with `u8::wrapping_add` starting from `init`. -/
def calc_checksum (init : Nat) (data : List Nat) : Nat :=
  data.foldl (fun a b => (a + b) % 256) init

/-- `proto.rs` `PreambleParser`: the two-state preamble sub-machine. -/
inductive PreambleParser where
  | Start
  | ZeroFound
deriving DecidableEq, Repr

/-- `proto.rs` `PreambleParser::next`: `None` signals a completed preamble.
Match arms in source order: `(ZeroFound, 0xFF) => None`,
`(_, 0x00) => Some(ZeroFound)`, `_ => Some(Start)`. -/
def PreambleParser.next (s : PreambleParser) (b : Nat) : Option PreambleParser :=
  match s, b with
  | .ZeroFound, 0xFF => none
  | _, 0x00 => some .ZeroFound
  | _, _ => some .Start

/-- `proto.rs` `ResponseParser`: the full frame-header state machine. -/
inductive ResponseParser where
  | Preamble (pp : PreambleParser)
  | Length
  | LengthChksum (l : Nat)
  | FrameIdentifier (l : Nat)
  | Done (l : Nat)
deriving DecidableEq, Repr

/-- `proto.rs` `ResponseParser::next`: one step; returns the new state and the
`bool` the Rust method returns (`false` exactly when the new state is `Done`). -/
def ResponseParser.next (s : ResponseParser) (b : Nat) :
    Except DataError (ResponseParser × Bool) :=
  match s with
  | .Preamble pp =>
      match pp.next b with
      | none => .ok (.Length, true)
      | some pp' => .ok (.Preamble pp', true)
  | .Length => .ok (.LengthChksum b, true)
  | .LengthChksum l =>
      if (l + b) % 256 = 0 then .ok (.FrameIdentifier l, true)
      else .error (.InvalidChecksum .Length)
  | .FrameIdentifier l =>
      if b = 0xD5 then .ok (.Done l, false)
      else .error (.InvalidByte b "0xD5")
  | .Done l => .ok (.Done l, false)

/-- `proto.rs` `ResponseParser::pkt_len`. -/
def ResponseParser.pkt_len (s : ResponseParser) : Option Nat :=
  match s with
  | .Done l => some l
  | _ => none

/-- The `for b in iter.by_ref()` loop of `process_packet`: feed bytes until
`next` returns `false` or errors; yields the final parser state and the
unread remainder of the input. -/
def runParser (s : ResponseParser) (bytes : List Nat) :
    Except DataError (ResponseParser × List Nat) :=
  match bytes with
  | [] => .ok (s, [])
  | b :: rest =>
      match s.next b with
      | .error e => .error e
      | .ok (s', true) => runParser s' rest
      | .ok (s', false) => .ok (s', rest)

/-- Writing `data` into list `l` starting at index `i`
(Rust `l[i..i+data.len()].copy_from_slice(data)`). -/
def writeAt (l : List Nat) (i : Nat) (data : List Nat) : List Nat :=
  l.take i ++ data ++ l.drop (i + data.length)

/-- `proto.rs` `PN532Proto::send`, with the bus write made explicit: `ok frame`
means exactly one bus write of `frame` was performed, `error` means none.
The 262-byte `outbuf` starts zeroed; writes follow the source order
(the data checksum is stored before the payload is copied in). -/
def send (data : List Nat) : Except (SendError Unit) (List Nat) :=
  if data.length > 254 then .error (.TooMuchData data.length)
  else
    let outbuf := List.replicate 262 0
    let outbuf := outbuf.set 1 0xFF
    let outbuf := outbuf.set 2 ((data.length + 1) % 256)
    let outbuf := outbuf.set 3 ((256 - (data.length + 1) % 256) % 256)
    let outbuf := outbuf.set 4 0xD4
    let outbuf := outbuf.set (5 + data.length) ((256 - calc_checksum 0xD4 data) % 256)
    let outbuf := writeAt outbuf 5 data
    .ok (outbuf.take (data.length + 6))

/-- `proto.rs` `PN532Proto::process_packet`, returning the bytes copied into
the destination (whose capacity is `dstLen`); the returned count in Rust is
the length of this list. -/
def process_packet (recved : List Nat) (dstLen : Nat) :
    Except (RecvError Unit) (List Nat) :=
  match runParser (.Preamble .Start) recved with
  | .error e => .error (.InvalidData e)
  | .ok (parser, rest) =>
      match parser.pkt_len with
      | none => .error .UnexpectedEnd
      | some len =>
          if len > rest.length then .error .UnexpectedEnd
          else if len = 0 then
            .error (.InvalidData (.InvalidByte 0 "value at least 0x01"))
          else if calc_checksum 0xD5 (rest.take len) ≠ 0 then
            .error (.InvalidData (.InvalidChecksum .Data))
          else
            .ok ((rest.take len).take (min (len - 1) dstLen))

/-- The scanning loop of `proto.rs` `PN532Proto::recv_ack`: run the preamble
sub-machine over the window; `true` iff it ever signals completion. -/
def ackScan (s : PreambleParser) (bytes : List Nat) : Bool :=
  match bytes with
  | [] => false
  | b :: rest =>
      match s.next b with
      | none => true
      | some s' => ackScan s' rest

/-- `proto.rs` `PN532Proto::recv_ack`, given the 32-byte window the single
ready-read produced. -/
def recv_ack (window : List Nat) : Except (RecvError Unit) Unit :=
  if ackScan .Start window then .ok () else .error .UnexpectedEnd

/-! ### Busy-wait read strategy (`src/bus/mod.rs`) -/

/-- A bus device trace: at poll iteration `k`, `read` either fails or leaves
`buf` in the caller's buffer and reports a byte count (which
`BusyWait::wait_iter` discards via `try!`). -/
def DeviceTrace (E : Type) := Nat → Except E (List Nat × Nat)

/-- `bus/mod.rs` `BusyWait::wait_iter` at poll iteration `k`: sleep, one bus
read, then report whether bit 0 of the first buffer byte is set. -/
def wait_iter (dev : DeviceTrace E) (k : Nat) : Except E (List Nat × Bool) :=
  match dev k with
  | .error e => .error e
  | .ok (buf, _) => .ok (buf, buf.headD 0 % 2 = 1)

/-- `bus/mod.rs` `BusyWait::wait_read`, fuel-bounded: `none` means the loop is
still polling after `fuel` iterations; on ready it returns `Ok(buf.len())`,
i.e. `bufLen`, the caller's buffer size. -/
def wait_read (dev : DeviceTrace E) (bufLen : Nat) (k : Nat) :
    Nat → Option (Except E Nat)
  | 0 => none
  | fuel + 1 =>
      match wait_iter dev k with
      | .error e => some (.error e)
      | .ok (_, true) => some (.ok bufLen)
      | .ok (_, false) => wait_read dev bufLen (k + 1) fuel

/-- `bus/mod.rs` `BusyWait::wait_read_timeout`, fuel-bounded.  `elapsed k` is
the time `start_time.elapsed()` observes at the check following poll
iteration `k`; the check runs only after an unsuccessful iteration. -/
def wait_read_timeout (dev : DeviceTrace E) (elapsed : Nat → Nat)
    (timeout : Nat) (bufLen : Nat) (k : Nat) :
    Nat → Option (Except (WaitError E) Nat)
  | 0 => none
  | fuel + 1 =>
      match wait_iter dev k with
      | .error e => some (.error (.OtherError e))
      | .ok (_, true) => some (.ok bufLen)
      | .ok (_, false) =>
          if timeout < elapsed k then some (.error .Timeout)
          else wait_read_timeout dev elapsed timeout bufLen (k + 1) fuel

/-! ### Command session (`src/device/mod.rs`) -/

/-- The `CommError` wrapper used by `device/mod.rs` (`CommError::RecvError(..)`
around receive failures). -/
inductive CommError (RE WE : Type) where
  | SendErr (e : SendError WE)
  | RecvErr (e : RecvError RE)
deriving DecidableEq, Repr

/-- `device/mod.rs` `SAMMode`. -/
inductive SAMMode where
  | Normal (t : Option Nat)
  | VirtualCard (t : Nat)
  | WiredCard (t : Option Nat)
  | DualCard (t : Option Nat)
deriving DecidableEq, Repr

/-- `device/mod.rs` `SAMMode::code`. -/
def SAMMode.code : SAMMode → Nat
  | .Normal _ => 0x01
  | .VirtualCard _ => 0x02
  | .WiredCard _ => 0x03
  | .DualCard _ => 0x04

/-- `device/mod.rs` `SAMMode::timeout`. -/
def SAMMode.timeout : SAMMode → Option Nat
  | .Normal t => t
  | .VirtualCard t => some t
  | .WiredCard t => t
  | .DualCard t => t

/-- The command bytes `device/mod.rs` `PN532::sam_configure` passes to
`send_wait_ack`: `cmd_buf = [0x14, code, 0x01, 0x01]`; with a timeout the
third byte is overwritten and all four bytes are sent, without one only the
first three. -/
def sam_configure_cmd (mode : SAMMode) : List Nat :=
  let cmd_buf := [0x14, mode.code, 0x01, 0x01]
  match mode.timeout with
  | some t => cmd_buf.set 2 t
  | none => cmd_buf.take 3

/-- The reply validation of `PN532::sam_configure`, given the received reply
length (`rcvbuf` holds a single byte, so `len ∈ {0, 1}`) and the first reply
byte. -/
def sam_check_reply (len : Nat) (b0 : Nat) : Except (CommError Unit Unit) Unit :=
  if len > 0 then
    if b0 = 0x15 then .ok ()
    else .error (.RecvErr (.InvalidData (.InvalidByte b0 "0x15")))
  else .error (.RecvErr .UnexpectedEnd)

/-! ### Tag cursors (`src/device/tags_internal.rs`) -/

/-- A `Tag` cursor: the response slice it views (a suffix of the reply
buffer) and its `last` flag.  The `&mut PN532` borrow carries no data. -/
structure TagCursor where
  data : List Nat
  last : Bool
deriving DecidableEq, Repr

/-- `tags_internal.rs` `Tags::new`: the count byte `buf[1]` and the response
slice `buf[2..]`. -/
def Tags.ofBuffer (buf : List Nat) : Nat × List Nat :=
  (buf.getD 1 0, buf.drop 2)

/-- `tags_internal.rs` `Tags::first`: yields the first cursor with
`last = (count != 2)`. -/
def Tags.first (count : Nat) (response : List Nat) : TagCursor :=
  { data := response, last := count ≠ 2 }

/-- The default `TagResponse::next` method: re-view the slice past the
current record (`&self.into_buf()[len..]`), for record-length function
`lenF`. -/
def tagResponseNext (lenF : List Nat → Nat) (data : List Nat) : List Nat :=
  data.drop (lenF data)

/-- `tags_internal.rs` `Tag::next`: consumes the cursor; `None` when `last`,
otherwise the next record's cursor, always marked `last = true`. -/
def Tag.next (lenF : List Nat → Nat) (t : TagCursor) : Option TagCursor :=
  if t.last then none
  else some { data := tagResponseNext lenF t.data, last := true }

/-- `tags_internal.rs` `ISO14443A::id_len`: `data[4]`. -/
def ISO14443A.id_len (data : List Nat) : Nat := data.getD 4 0

/-- `tags_internal.rs` `ISO14443A::ats_len`: `data[5 + id_len]`. -/
def ISO14443A.ats_len (data : List Nat) : Nat :=
  data.getD (5 + ISO14443A.id_len data) 0

/-- `tags_internal.rs` `ISO14443A`'s `TagResponse::len`:
`id_len + ats_len + 4`. -/
def ISO14443A.len (data : List Nat) : Nat :=
  ISO14443A.id_len data + ISO14443A.ats_len data + 4

/-- `tags_internal.rs` `Tag<ISO14443A>::sens_res`:
`((buf[1] as u16) << 8) | (buf[2] as u16)`. -/
def ISO14443A.sens_res (data : List Nat) : Nat :=
  (data.getD 1 0) <<< 8 ||| data.getD 2 0

/-- `tags_internal.rs` `Tag<ISO14443A>::sel_res`: `buf[3]`. -/
def ISO14443A.sel_res (data : List Nat) : Nat := data.getD 3 0

/-- `tags_internal.rs` `Tag<ISO14443A>::id`: `&buf[5..5 + id_len]`. -/
def ISO14443A.id (data : List Nat) : List Nat :=
  (data.drop 5).take (ISO14443A.id_len data)

/-- `tags_internal.rs` `Tag<ISO14443A>::ats`: `&buf[(5 + id_len + 1)..]`. -/
def ISO14443A.ats (data : List Nat) : List Nat :=
  data.drop (5 + ISO14443A.id_len data + 1)

/-! ### The two ISO14443A list-options encoders (C9) -/

/-- The `ISO14443A` arm of `device/mod.rs` `ListTagData::fill_buf`: returns
the buffer after the writes and the reported encoded length.  Note
`to_copy = min(buf.len(), data.len())` and the return value `to_copy + 1`. -/
def ListTagData.fill_buf_ISO14443A (limit : Nat) (uid : Option (List Nat))
    (buf : List Nat) : List Nat × Nat :=
  let buf := buf.set 0 limit
  match uid with
  | some data =>
      let buf := buf.set 1 0x00
      let to_copy := min buf.length data.length
      (writeAt buf 2 (data.take to_copy), to_copy + 1)
  | none => (buf.set 1 0x00, 2)

/-- `tags_internal.rs` `ISO14443AListOptions::fill_buf`: note
`to_copy = min(buf.len() - 2, data.len())` and the return value
`to_copy + 2`. -/
def ISO14443AListOptions.fill_buf (limit : Nat) (uid : Option (List Nat))
    (buf : List Nat) : List Nat × Nat :=
  let buf := buf.set 0 limit
  let buf := buf.set 1 0x00
  match uid with
  | some data =>
      let to_copy := min (buf.length - 2) data.length
      (writeAt buf 2 (data.take to_copy), to_copy + 2)
  | none => (buf, 2)

/-! ### Helper lemmas -/

/-- The wrapping checksum fold computes the byte sum mod 256. -/
theorem calc_checksum_eq_sum (init : Nat) (data : List Nat) (h : init < 256) :
    calc_checksum init data = (init + data.sum) % 256 := by
  induction data generalizing init with
  | nil => simp [calc_checksum, Nat.mod_eq_of_lt h]
  | cons b bs ih =>
      have : calc_checksum init (b :: bs) = calc_checksum ((init + b) % 256) bs := rfl
      rw [this, ih _ (Nat.mod_lt _ (by omega))]
      rw [Nat.mod_add_mod]
      simp [Nat.add_assoc]

theorem set_at_append (l1 : List Nat) (x : Nat) (l2 : List Nat) (v : Nat) :
    (l1 ++ x :: l2).set l1.length v = l1 ++ v :: l2 := by
  induction l1 with
  | nil => rfl
  | cons a as ih => simp [List.set, ih]

/-- Evaluation of `send`'s buffer pipeline: the five header stores, the
data-checksum store at index `5 + n`, the payload copy at index 5, and the
final truncation to `n + 6` bytes. -/
theorem send_buffer_eval (n : Nat) (hn : n ≤ 254) (a b c : Nat)
    (data : List Nat) (hd : data.length = n) :
    (writeAt ((((((List.replicate 262 0).set 1 0xFF).set 2 a).set 3 b).set
        4 0xD4).set (5 + n) c) 5 data).take (n + 6)
      = 0 :: 0xFF :: a :: b :: 0xD4 :: (data ++ [c]) := by
  have e5 : (((((List.replicate 262 (0:Nat)).set 1 0xFF).set 2 a).set 3 b).set 4 0xD4)
      = [0, 0xFF, a, b, 0xD4] ++ List.replicate 257 0 := rfl
  rw [e5]
  have eR : List.replicate 257 (0:Nat)
      = List.replicate n 0 ++ 0 :: List.replicate (256 - n) 0 := by
    calc List.replicate 257 (0:Nat) = List.replicate (n + (1 + (256 - n))) 0 := by
          congr 1; omega
      _ = List.replicate n 0 ++ (List.replicate 1 0 ++ List.replicate (256 - n) 0) := by
          rw [List.replicate_add, List.replicate_add]
      _ = List.replicate n 0 ++ 0 :: List.replicate (256 - n) 0 := rfl
  rw [eR, ← List.append_assoc]
  have hlen : ([0, 0xFF, a, b, 0xD4] ++ List.replicate n 0).length = 5 + n := by
    simp; omega
  rw [← hlen, set_at_append]
  unfold writeAt
  have ht5 : (([0, 0xFF, a, b, 0xD4] ++ List.replicate n 0) ++
      c :: List.replicate (256 - n) 0).take 5 = [0, 0xFF, a, b, 0xD4] := by
    rw [List.append_assoc]
    exact List.take_left' rfl
  have hd5 : (([0, 0xFF, a, b, 0xD4] ++ List.replicate n 0) ++
      c :: List.replicate (256 - n) 0).drop (5 + n)
      = c :: List.replicate (256 - n) 0 := by
    refine List.drop_left' ?_
    simp; omega
  rw [hd, ht5, hd5]
  have : ([0, 0xFF, a, b, 0xD4] : List Nat) ++ data ++ c :: List.replicate (256 - n) 0
      = (([0, 0xFF, a, b, 0xD4] ++ data ++ [c]) ++ List.replicate (256 - n) 0) := by
    simp
  rw [this]
  rw [List.take_left' (by
    simp only [List.length_append, List.length_cons, List.length_nil, hd]
    omega)]
  simp

/-- C1: for payloads of at most 254 bytes, `send` performs exactly one bus
write of `00 FF L LCS D4 <payload> DCS` with `L = len + 1`,
`LCS = (256 - L) % 256`, `DCS = (256 - (0xD4 + sum) % 256) % 256`, `len + 6`
bytes in total; payloads longer than 254 bytes yield `TooMuchData` and no
write. -/
theorem send_wire_format (data : List Nat) :
    (data.length ≤ 254 →
      send data = .ok (0x00 :: 0xFF :: (data.length + 1) ::
        ((256 - (data.length + 1)) % 256) :: 0xD4 ::
        (data ++ [(256 - (0xD4 + data.sum) % 256) % 256])) ∧
      ∀ frame, send data = .ok frame → frame.length = data.length + 6) ∧
    (254 < data.length →
      send data = .error (.TooMuchData data.length) ∧
      ∀ frame, send data ≠ .ok frame) := by
  constructor
  · intro h
    have hmod1 : (data.length + 1) % 256 = data.length + 1 :=
      Nat.mod_eq_of_lt (by omega)
    have hframe : send data = .ok (0x00 :: 0xFF :: (data.length + 1) ::
        ((256 - (data.length + 1)) % 256) :: 0xD4 ::
        (data ++ [(256 - (0xD4 + data.sum) % 256) % 256])) := by
      unfold send
      rw [if_neg (by omega)]
      show Except.ok ((writeAt ((((((List.replicate 262 0).set 1 0xFF).set
          2 ((data.length + 1) % 256)).set 3 ((256 - (data.length + 1) % 256) % 256)).set
          4 0xD4).set (5 + data.length) ((256 - calc_checksum 0xD4 data) % 256))
          5 data).take (data.length + 6)) = _
      rw [send_buffer_eval data.length h _ _ _ data rfl]
      rw [calc_checksum_eq_sum 0xD4 data (by norm_num), hmod1]
    refine ⟨hframe, ?_⟩
    intro frame hf
    rw [hframe] at hf
    cases hf
    simp
  · intro h
    have herr : send data = .error (.TooMuchData data.length) := by
      unfold send
      rw [if_pos (by omega)]
    exact ⟨herr, fun frame hf => by rw [herr] at hf; cases hf⟩

/-- Witness for C1: evaluation at payload `[42, 47]` and at an over-long
payload. -/
theorem send_wire_format_witness :
    send [42, 47] = .ok [0x00, 0xFF, 3, 253, 0xD4, 42, 47, 211] ∧
    send (List.replicate 255 0) = .error (.TooMuchData 255) := by
  constructor
  · have h := (send_wire_format [42, 47]).1 (by decide) |>.1
    simpa using h
  · have h := (send_wire_format (List.replicate 255 0)).2
      (by simp only [List.length_replicate]; omega) |>.1
    simp only [List.length_replicate] at h
    exact h

/-- `PreambleParser::next` from `Start`, as a conditional. -/
theorem preamble_next_start (b : Nat) :
    PreambleParser.next .Start b
      = if b = 0 then some .ZeroFound else some .Start := by
  unfold PreambleParser.next
  split <;> simp_all

/-- `PreambleParser::next` from `ZeroFound`, as a conditional: `0xFF`
completes, `0x00` stays in `ZeroFound`, everything else resyncs to
`Start`. -/
theorem preamble_next_zerofound (b : Nat) :
    PreambleParser.next .ZeroFound b
      = if b = 0xFF then none
        else if b = 0 then some .ZeroFound else some .Start := by
  unfold PreambleParser.next
  split <;> simp_all

/-- C3 counterexample: the byte `0x00` is a byte other than `0xFF`, yet from
`ZeroFound` the parser stays in `ZeroFound` rather than returning to
`Start`. -/
theorem preamble_zerofound_zero_counterexample :
    ¬ (∀ b : Nat, b ≠ 0xFF → PreambleParser.next .ZeroFound b = some .Start) := by
  intro h
  have h0 := h 0 (by decide)
  exact absurd h0 (by decide)

/-- C3 amended: from `ZeroFound`, byte `0xFF` completes the preamble (the
`ResponseParser` advances to `Length`), byte `0x00` keeps the parser in
`ZeroFound`, and every byte other than `0xFF` and `0x00` returns it to
`Start`. -/
theorem preamble_zerofound_transitions (b : Nat) :
    PreambleParser.next .ZeroFound 0xFF = none ∧
    ResponseParser.next (.Preamble .ZeroFound) 0xFF = .ok (.Length, true) ∧
    PreambleParser.next .ZeroFound 0x00 = some .ZeroFound ∧
    (b ≠ 0xFF → b ≠ 0x00 → PreambleParser.next .ZeroFound b = some .Start) := by
  refine ⟨rfl, rfl, rfl, fun h255 h0 => ?_⟩
  rw [preamble_next_zerofound, if_neg h255, if_neg h0]

/-- Witness for C3's amended theorem at byte `0x07`. -/
theorem preamble_zerofound_transitions_witness :
    PreambleParser.next .ZeroFound 0x07 = some .Start :=
  (preamble_zerofound_transitions 0x07).2.2.2 (by decide) (by decide)

/-- Adjacent `00 FF` pairs in `b :: rest`, split at the head. -/
theorem exists_adj_cons (b : Nat) (rest : List Nat) :
    (∃ i, (b :: rest)[i]? = some 0x00 ∧ (b :: rest)[i+1]? = some 0xFF) ↔
      ((b = 0 ∧ rest[0]? = some 0xFF) ∨
        ∃ i, rest[i]? = some 0x00 ∧ rest[i+1]? = some 0xFF) := by
  constructor
  · rintro ⟨i, h1, h2⟩
    cases i with
    | zero =>
        left
        refine ⟨by simpa using h1, by simpa using h2⟩
    | succ i =>
        right
        exact ⟨i, by simpa using h1, by simpa using h2⟩
  · rintro (⟨hb, h⟩ | ⟨i, h1, h2⟩)
    · exact ⟨0, by simp [hb], by simpa using h⟩
    · exact ⟨i + 1, by simpa using h1, by simpa using h2⟩

/-- The ack scan succeeds from `Start` iff the bytes contain a `0x00`
immediately followed by `0xFF`; from `ZeroFound` the pending zero also
counts. -/
theorem ackScan_iff (bytes : List Nat) :
    (ackScan .Start bytes = true ↔
      ∃ i, bytes[i]? = some 0x00 ∧ bytes[i+1]? = some 0xFF) ∧
    (ackScan .ZeroFound bytes = true ↔
      (bytes[0]? = some 0xFF ∨
        ∃ i, bytes[i]? = some 0x00 ∧ bytes[i+1]? = some 0xFF)) := by
  induction bytes with
  | nil => constructor <;> simp [ackScan]
  | cons b rest ih =>
      have hs : ackScan .Start (b :: rest)
          = if b = 0 then ackScan .ZeroFound rest else ackScan .Start rest := by
        show (match PreambleParser.next .Start b with
          | none => true
          | some s' => ackScan s' rest) = _
        rw [preamble_next_start]
        by_cases hb : b = 0 <;> simp [hb]
      have hz : ackScan .ZeroFound (b :: rest)
          = if b = 0xFF then true
            else if b = 0 then ackScan .ZeroFound rest else ackScan .Start rest := by
        show (match PreambleParser.next .ZeroFound b with
          | none => true
          | some s' => ackScan s' rest) = _
        rw [preamble_next_zerofound]
        by_cases hff : b = 0xFF
        · simp [hff]
        · by_cases hb : b = 0 <;> simp [hff, hb]
      constructor
      · by_cases hb : b = 0
        · subst hb
          rw [hs, if_pos rfl, ih.2, exists_adj_cons]
          simp
        · rw [hs, if_neg hb, ih.1, exists_adj_cons]
          simp [hb]
      · by_cases hff : b = 0xFF
        · subst hff
          rw [hz, if_pos rfl]
          simp
        · by_cases hb : b = 0
          · subst hb
            rw [hz, if_neg (by decide), if_pos rfl, ih.2, exists_adj_cons]
            simp
          · rw [hz, if_neg hff, if_neg hb, ih.1, exists_adj_cons]
            simp [hb, hff]

/-- C4: given the 32-byte window of its single ready-read, `recv_ack`
succeeds iff some byte `0x00` is immediately followed by `0xFF`, and
otherwise returns `UnexpectedEnd`; nothing beyond this pair is validated. -/
theorem recv_ack_pair_iff (window : List Nat) :
    (recv_ack window = .ok () ↔
      ∃ i, window[i]? = some 0x00 ∧ window[i+1]? = some 0xFF) ∧
    (recv_ack window = .error .UnexpectedEnd ↔
      ¬ ∃ i, window[i]? = some 0x00 ∧ window[i+1]? = some 0xFF) := by
  have h := (ackScan_iff window).1
  have e : recv_ack window
      = if ackScan .Start window then .ok () else .error .UnexpectedEnd := rfl
  by_cases hscan : ackScan .Start window = true
  · rw [e, if_pos hscan]
    have hp := h.mp hscan
    refine ⟨⟨fun _ => hp, fun _ => rfl⟩, ⟨fun hx => ?_, fun hx => absurd hp hx⟩⟩
    exact Except.noConfusion hx
  · have hnp : ¬ ∃ i, window[i]? = some 0x00 ∧ window[i+1]? = some 0xFF :=
      fun hx => hscan (h.mpr hx)
    rw [e, if_neg hscan]
    refine ⟨⟨fun hx => ?_, fun hx => absurd hx hnp⟩, ⟨fun _ => hnp, fun _ => rfl⟩⟩
    exact Except.noConfusion hx

/-- C2: once the frame parser has reached `Done L` with `rest` unread, the
remaining bytes are payload (`L - 1` bytes) plus one checksum byte: fewer
than `L` remaining gives `UnexpectedEnd`; `L = 0` gives
`InvalidByte(0, "value at least 0x01")`; a wrapping byte sum seeded with
`0xD5` over those `L` bytes that is nonzero mod 256 gives
`InvalidChecksum(Data)`; otherwise exactly `min (L - 1) dstLen` payload
bytes are copied out. -/
theorem process_packet_done_spec (recved : List Nat) (dstLen L : Nat)
    (rest : List Nat)
    (h : runParser (.Preamble .Start) recved = .ok (.Done L, rest)) :
    (rest.length < L → process_packet recved dstLen = .error .UnexpectedEnd) ∧
    (L = 0 → process_packet recved dstLen
      = .error (.InvalidData (.InvalidByte 0 "value at least 0x01"))) ∧
    (0 < L → L ≤ rest.length →
      ((0xD5 + (rest.take L).sum) % 256 ≠ 0 →
        process_packet recved dstLen
          = .error (.InvalidData (.InvalidChecksum .Data))) ∧
      ((0xD5 + (rest.take L).sum) % 256 = 0 →
        process_packet recved dstLen = .ok ((rest.take (L - 1)).take dstLen) ∧
        ∀ out, process_packet recved dstLen = .ok out →
          out.length = min (L - 1) dstLen)) := by
  have hpp : process_packet recved dstLen =
      (if L > rest.length then .error .UnexpectedEnd
       else if L = 0 then
         .error (.InvalidData (.InvalidByte 0 "value at least 0x01"))
       else if calc_checksum 0xD5 (rest.take L) ≠ 0 then
         .error (.InvalidData (.InvalidChecksum .Data))
       else .ok ((rest.take L).take (min (L - 1) dstLen))) := by
    unfold process_packet
    rw [h]
    rfl
  rw [calc_checksum_eq_sum 0xD5 _ (by norm_num)] at hpp
  refine ⟨?_, ?_, ?_⟩
  · intro hlt
    rw [hpp, if_pos (by omega)]
  · intro h0
    subst h0
    rw [hpp, if_neg (by omega), if_pos rfl]
  · intro hpos hle
    constructor
    · intro hck
      rw [hpp, if_neg (by omega), if_neg (by omega), if_pos hck]
    · intro hck
      have hok : process_packet recved dstLen
          = .ok ((rest.take L).take (min (L - 1) dstLen)) := by
        rw [hpp, if_neg (by omega), if_neg (by omega), if_neg (by simp [hck])]
      have htt : (rest.take L).take (min (L - 1) dstLen)
          = (rest.take (L - 1)).take dstLen := by
        rw [List.take_take, List.take_take]
        congr 1
        omega
      refine ⟨by rw [hok, htt], ?_⟩
      intro out hout
      rw [hok] at hout
      cases hout
      simp only [List.length_take]
      omega

/-- Witness for C2: the two-byte frame `00 FF 02 FE D5 01 2A` decodes to the
single payload byte `0x01`. -/
theorem process_packet_done_spec_witness :
    runParser (.Preamble .Start) [0x00, 0xFF, 0x02, 0xFE, 0xD5, 0x01, 0x2A]
      = .ok (.Done 2, [0x01, 0x2A]) ∧
    process_packet [0x00, 0xFF, 0x02, 0xFE, 0xD5, 0x01, 0x2A] 32 = .ok [0x01] := by
  refine ⟨rfl, ?_⟩
  have h := (process_packet_done_spec [0x00, 0xFF, 0x02, 0xFE, 0xD5, 0x01, 0x2A]
      32 2 [0x01, 0x2A] rfl).2.2 (by decide) (by decide) |>.2 (by decide) |>.1
  simpa using h

/-- Unfolding of `wait_read` for one more unit of fuel. -/
theorem wait_read_succ (dev : DeviceTrace E) (bufLen k fuel : Nat) :
    wait_read dev bufLen k (fuel + 1)
      = match wait_iter dev k with
        | .error e => some (.error e)
        | .ok (_, true) => some (.ok bufLen)
        | .ok (_, false) => wait_read dev bufLen (k + 1) fuel := rfl

/-- Unfolding of `wait_read_timeout` for one more unit of fuel. -/
theorem wait_read_timeout_succ (dev : DeviceTrace E)
    (elapsed : Nat → Nat) (timeout bufLen k fuel : Nat) :
    wait_read_timeout dev elapsed timeout bufLen k (fuel + 1)
      = match wait_iter dev k with
        | .error e => some (.error (.OtherError e))
        | .ok (_, true) => some (.ok bufLen)
        | .ok (_, false) =>
            if timeout < elapsed k then some (.error .Timeout)
            else wait_read_timeout dev elapsed timeout bufLen (k + 1) fuel := rfl

/-- A read that reports not-ready (bit 0 of the first byte clear). -/
theorem wait_iter_not_ready (dev : DeviceTrace E) (k : Nat) (buf : List Nat)
    (cnt : Nat) (hk : dev k = .ok (buf, cnt)) (hnr : buf.headD 0 % 2 = 0) :
    wait_iter dev k = .ok (buf, false) := by
  unfold wait_iter
  rw [hk]
  simp only [hnr]
  rfl

/-- A read that reports ready. -/
theorem wait_iter_ready (dev : DeviceTrace E) (k : Nat) (buf : List Nat)
    (cnt : Nat) (hk : dev k = .ok (buf, cnt)) (hr : buf.headD 0 % 2 = 1) :
    wait_iter dev k = .ok (buf, true) := by
  unfold wait_iter
  rw [hk]
  simp only [hr]
  rfl

/-- One not-ready step of `wait_read_timeout`. -/
theorem wait_read_timeout_step_not_ready (dev : DeviceTrace E)
    (elapsed : Nat → Nat) (timeout bufLen k fuel : Nat) (buf : List Nat)
    (cnt : Nat) (hk : dev k = .ok (buf, cnt)) (hnr : buf.headD 0 % 2 = 0) :
    wait_read_timeout dev elapsed timeout bufLen k (fuel + 1)
      = if timeout < elapsed k then some (.error .Timeout)
        else wait_read_timeout dev elapsed timeout bufLen (k + 1) fuel := by
  rw [wait_read_timeout_succ, wait_iter_not_ready dev k buf cnt hk hnr]

/-- One erroring step of `wait_read_timeout`. -/
theorem wait_read_timeout_step_error (dev : DeviceTrace E)
    (elapsed : Nat → Nat) (timeout bufLen k fuel : Nat) (e : E)
    (hk : dev k = .error e) :
    wait_read_timeout dev elapsed timeout bufLen k (fuel + 1)
      = some (.error (.OtherError e)) := by
  rw [wait_read_timeout_succ]
  have : wait_iter dev k = .error e := by
    unfold wait_iter
    rw [hk]
  rw [this]

/-- Against a never-ready device, `wait_read_timeout` either is still
polling or has returned `Timeout`. -/
theorem wrt_never_ready_cases (dev : DeviceTrace E) (elapsed : Nat → Nat)
    (timeout bufLen : Nat)
    (hdev : ∀ k, ∃ buf cnt, dev k = .ok (buf, cnt) ∧ buf.headD 0 % 2 = 0) :
    ∀ fuel k, wait_read_timeout dev elapsed timeout bufLen k fuel = none ∨
      wait_read_timeout dev elapsed timeout bufLen k fuel
        = some (.error .Timeout) := by
  intro fuel
  induction fuel with
  | zero => intro k; left; rfl
  | succ fuel ih =>
      intro k
      obtain ⟨buf, cnt, hk, hnr⟩ := hdev k
      rw [wait_read_timeout_step_not_ready dev elapsed timeout bufLen k fuel
        buf cnt hk hnr]
      by_cases ht : timeout < elapsed k
      · right; rw [if_pos ht]
      · rw [if_neg ht]; exact ih (k + 1)

/-- Against a never-ready device, enough fuel to reach an iteration whose
elapsed time exceeds the timeout forces termination. -/
theorem wrt_never_ready_terminates (dev : DeviceTrace E) (elapsed : Nat → Nat)
    (timeout bufLen : Nat)
    (hdev : ∀ k, ∃ buf cnt, dev k = .ok (buf, cnt) ∧ buf.headD 0 % 2 = 0) :
    ∀ fuel k j, timeout < elapsed (k + j) → j < fuel →
      wait_read_timeout dev elapsed timeout bufLen k fuel ≠ none := by
  intro fuel
  induction fuel with
  | zero => intro k j _ hj; omega
  | succ fuel ih =>
      intro k j hj hjf h
      obtain ⟨buf, cnt, hk, hnr⟩ := hdev k
      rw [wait_read_timeout_step_not_ready dev elapsed timeout bufLen k fuel
        buf cnt hk hnr] at h
      by_cases ht : timeout < elapsed k
      · rw [if_pos ht] at h; cases h
      · rw [if_neg ht] at h
        have hj0 : j ≠ 0 := by
          intro h0
          subst h0
          simp only [Nat.add_zero] at hj
          exact ht hj
        obtain ⟨j', rfl⟩ : ∃ j', j = j' + 1 := ⟨j - 1, by omega⟩
        refine ih (k + 1) j' ?_ (by omega) h
        rw [show k + 1 + j' = k + (j' + 1) by omega]
        exact hj

/-- A `Timeout` return means some polled iteration observed elapsed time
strictly above the timeout (any device). -/
theorem wrt_timeout_implies_elapsed (dev : DeviceTrace E) (elapsed : Nat → Nat)
    (timeout bufLen : Nat) :
    ∀ fuel k, wait_read_timeout dev elapsed timeout bufLen k fuel
        = some (.error .Timeout) →
      ∃ j, k ≤ j ∧ j < k + fuel ∧ timeout < elapsed j := by
  intro fuel
  induction fuel with
  | zero => intro k h; cases h
  | succ fuel ih =>
      intro k h
      cases hk : dev k with
      | error e =>
          rw [wait_read_timeout_step_error dev elapsed timeout bufLen
            k fuel e hk] at h
          simp at h
      | ok p =>
          obtain ⟨buf, cnt⟩ := p
          rcases Nat.mod_two_eq_zero_or_one (buf.headD 0) with hnr | hr
          · rw [wait_read_timeout_step_not_ready dev elapsed timeout bufLen
              k fuel buf cnt hk hnr] at h
            by_cases ht : timeout < elapsed k
            · exact ⟨k, Nat.le_refl k, by omega, ht⟩
            · rw [if_neg ht] at h
              obtain ⟨j, hj1, hj2, hj3⟩ := ih (k + 1) h
              exact ⟨j, by omega, by omega, hj3⟩
          · rw [wait_read_timeout_succ,
              wait_iter_ready dev k buf cnt hk hr] at h
            simp at h

/-- C5: against a device whose reads always succeed but never report ready,
`wait_read_timeout` never succeeds; it does return `Timeout` (here within
`timeout + 2` iterations when each iteration costs at least one time unit),
any `Timeout` return follows an elapsed-time check that observed strictly
more than the requested timeout after an unsuccessful iteration, and a read
error propagates immediately. -/
theorem wait_read_timeout_never_ready_spec (dev : DeviceTrace Unit)
    (elapsed : Nat → Nat) (timeout bufLen : Nat)
    (hdev : ∀ k, ∃ buf cnt, dev k = .ok (buf, cnt) ∧ buf.headD 0 % 2 = 0)
    (helapsed : ∀ k, k ≤ elapsed k) :
    (∀ fuel k m,
      wait_read_timeout dev elapsed timeout bufLen k fuel ≠ some (.ok m)) ∧
    wait_read_timeout dev elapsed timeout bufLen 0 (timeout + 2)
      = some (.error .Timeout) ∧
    (∀ fuel k, wait_read_timeout dev elapsed timeout bufLen k fuel
        = some (.error .Timeout) →
      ∃ j, k ≤ j ∧ j < k + fuel ∧ timeout < elapsed j) ∧
    (∀ (dev2 : DeviceTrace Unit) (e : Unit) (fuel k : Nat), dev2 k = .error e →
      wait_read_timeout dev2 elapsed timeout bufLen k (fuel + 1)
        = some (.error (.OtherError e))) := by
  refine ⟨?_, ?_, ?_, ?_⟩
  · intro fuel k m hok
    rcases wrt_never_ready_cases dev elapsed timeout bufLen hdev fuel k with
      hnone | htimeout
    · rw [hok] at hnone; cases hnone
    · rw [hok] at htimeout; simp at htimeout
  · have hterm := wrt_never_ready_terminates dev elapsed timeout bufLen hdev
      (timeout + 2) 0 (timeout + 1)
      (by simpa using Nat.lt_of_lt_of_le (by omega) (helapsed (timeout + 1)))
      (by omega)
    rcases wrt_never_ready_cases dev elapsed timeout bufLen hdev
      (timeout + 2) 0 with hnone | htimeout
    · exact absurd hnone hterm
    · exact htimeout
  · exact wrt_timeout_implies_elapsed dev elapsed timeout bufLen
  · intro dev2 e fuel k hk
    exact wait_read_timeout_step_error dev2 elapsed timeout bufLen k fuel e hk

/-- Witness for C5: a device answering `ok ([0], 1)` forever, with
`elapsed = id` and a timeout of 3, times out within 5 iterations. -/
theorem wait_read_timeout_never_ready_spec_witness :
    wait_read_timeout (fun _ => .ok ([0], 1) : DeviceTrace Unit) id 3 32 0 5
      = some (.error .Timeout) := by
  have h := wait_read_timeout_never_ready_spec
    (fun _ => .ok ([0], 1) : DeviceTrace Unit) id 3 32
    (fun k => ⟨[0], 1, rfl, rfl⟩) (fun k => Nat.le_refl k)
  exact h.2.1

/-- C10: whenever `wait_read` or `wait_read_timeout` returns successfully,
the returned count is exactly the caller's buffer length, irrespective of
the byte count the underlying bus read reported. -/
theorem wait_read_returns_full_buffer :
    (∀ (E : Type) (dev : DeviceTrace E) (bufLen k fuel m : Nat),
      wait_read dev bufLen k fuel = some (.ok m) → m = bufLen) ∧
    (∀ (E : Type) (dev : DeviceTrace E) (elapsed : Nat → Nat)
        (timeout bufLen k fuel m : Nat),
      wait_read_timeout dev elapsed timeout bufLen k fuel = some (.ok m) →
        m = bufLen) := by
  constructor
  · intro E dev bufLen k fuel
    induction fuel generalizing k with
    | zero => intro m h; cases h
    | succ fuel ih =>
        intro m h
        rw [wait_read_succ] at h
        cases hiter : wait_iter dev k with
        | error e => rw [hiter] at h; simp at h
        | ok p =>
            obtain ⟨buf, ready⟩ := p
            cases ready with
            | true =>
                rw [hiter] at h
                simp at h
                omega
            | false =>
                rw [hiter] at h
                exact ih (k + 1) m h
  · intro E dev elapsed timeout bufLen k fuel
    induction fuel generalizing k with
    | zero => intro m h; cases h
    | succ fuel ih =>
        intro m h
        rw [wait_read_timeout_succ] at h
        cases hiter : wait_iter dev k with
        | error e => rw [hiter] at h; simp at h
        | ok p =>
            obtain ⟨buf, ready⟩ := p
            cases ready with
            | true =>
                rw [hiter] at h
                simp at h
                omega
            | false =>
                rw [hiter] at h
                by_cases ht : timeout < elapsed k
                · rw [if_pos ht] at h; simp at h
                · rw [if_neg ht] at h; exact ih (k + 1) m h

/-- Witness for C10: a device whose single ready read reports 7 bytes still
makes `wait_read` return the caller's full 32-byte buffer size. -/
theorem wait_read_returns_full_buffer_witness :
    wait_read (fun _ => .ok ([1], 7) : DeviceTrace Unit) 32 0 1
      = some (.ok 32) ∧ (32 : Nat) = 32 :=
  ⟨rfl, wait_read_returns_full_buffer.1 Unit
    (fun _ => .ok ([1], 7)) 32 0 1 32 rfl⟩

/-- C6: the SAM configure command is `[0x14, code, 0x01]` without a timeout
and `[0x14, code, t, 0x01]` with one (for mode `Normal`: `[0x14, 0x01, 0x01]`
and `[0x14, 0x01, 5, 0x01]` respectively), and the reply is accepted iff it
is the single byte `0x15`; another first byte gives `InvalidByte`, an empty
reply gives `UnexpectedEnd`. -/
theorem sam_configure_spec :
    sam_configure_cmd (.Normal none) = [0x14, 0x01, 0x01] ∧
    sam_configure_cmd (.Normal (some 5)) = [0x14, 0x01, 5, 0x01] ∧
    (∀ (mode : SAMMode) (t : Nat), mode.timeout = some t →
      sam_configure_cmd mode = [0x14, mode.code, t, 0x01]) ∧
    (∀ mode : SAMMode, mode.timeout = none →
      sam_configure_cmd mode = [0x14, mode.code, 0x01]) ∧
    (∀ len b0, sam_check_reply len b0 = .ok () ↔ 0 < len ∧ b0 = 0x15) ∧
    (∀ len b0, 0 < len → b0 ≠ 0x15 →
      sam_check_reply len b0
        = .error (.RecvErr (.InvalidData (.InvalidByte b0 "0x15")))) ∧
    (∀ b0, sam_check_reply 0 b0 = .error (.RecvErr .UnexpectedEnd)) := by
  refine ⟨rfl, rfl, ?_, ?_, ?_, ?_, fun b0 => rfl⟩
  · intro mode t ht
    unfold sam_configure_cmd
    rw [ht]
    rfl
  · intro mode ht
    unfold sam_configure_cmd
    rw [ht]
    rfl
  · intro len b0
    unfold sam_check_reply
    by_cases hl : len > 0
    · rw [if_pos hl]
      by_cases hb : b0 = 0x15
      · subst hb
        simp [hl]
      · rw [if_neg hb]
        exact ⟨fun hx => Except.noConfusion hx, fun hx => absurd hx.2 hb⟩
    · rw [if_neg hl]
      exact ⟨fun hx => Except.noConfusion hx, fun hx => absurd hx.1 hl⟩
  · intro len b0 hl hb
    unfold sam_check_reply
    rw [if_pos hl, if_neg hb]

/-- Witness for C6 at mode `WiredCard` with timeout 7 and at a reply byte
`0x20`. -/
theorem sam_configure_spec_witness :
    sam_configure_cmd (.WiredCard (some 7)) = [0x14, 0x03, 7, 0x01] ∧
    sam_check_reply 1 0x20
      = .error (.RecvErr (.InvalidData (.InvalidByte 0x20 "0x15"))) := by
  constructor
  · have h := sam_configure_spec.2.2.1 (.WiredCard (some 7)) 7 rfl
    simpa using h
  · exact sam_configure_spec.2.2.2.2.2.1 1 0x20 (by decide) (by decide)

/-- C7 counterexample: for a (malformed) tag count of 3 — which satisfies
`count ≥ 1` — `Tags::first` marks the cursor `last = (count != 2) = true`,
not `(count == 1) = false`. -/
theorem tags_first_last_counterexample :
    1 ≤ 3 ∧ (Tags.first 3 []).last = true ∧
      (Tags.first 3 []).last ≠ decide ((3 : Nat) = 1) := by
  refine ⟨by omega, rfl, by decide⟩

/-- C7 amended: `Tags::first` marks the first cursor `last = (count != 2)`,
which coincides with `(count == 1)` for counts 1 and 2 (the protocol's
range); `Tag::next` consumes the cursor, returns nothing when `last` is set
and otherwise a cursor advanced by the current record's length, always
marked `last = true`. -/
theorem tags_first_next_spec (c : Nat) (response : List Nat)
    (lenF : List Nat → Nat) (t : TagCursor) :
    (Tags.first c response).data = response ∧
    (Tags.first c response).last = decide (c ≠ 2) ∧
    (1 ≤ c → c ≤ 2 → (Tags.first c response).last = decide (c = 1)) ∧
    (t.last = true → Tag.next lenF t = none) ∧
    (t.last = false →
      Tag.next lenF t = some ⟨t.data.drop (lenF t.data), true⟩) := by
  refine ⟨rfl, rfl, ?_, ?_, ?_⟩
  · intro h1 h2
    have hc : c = 1 ∨ c = 2 := by omega
    rcases hc with rfl | rfl <;> rfl
  · intro h
    unfold Tag.next
    rw [h]
    rfl
  · intro h
    unfold Tag.next
    rw [h]
    rfl

/-- Witness for C7's amended theorem at count 2 and a concrete cursor. -/
theorem tags_first_next_spec_witness :
    (Tags.first 2 [7, 8]).last = decide ((2 : Nat) = 1) ∧
    Tag.next (fun _ => 1) ⟨[5, 6], false⟩ = some ⟨[6], true⟩ := by
  constructor
  · exact (tags_first_next_spec 2 [7, 8] (fun _ => 1) ⟨[5, 6], false⟩).2.2.1
      (by omega) (by omega)
  · exact (tags_first_next_spec 2 [7, 8] (fun _ => 1) ⟨[5, 6], false⟩).2.2.2.2 rfl

/-- Bit-or of a byte shifted left by 8 with a second byte is the big-endian
16-bit value. -/
theorem shiftLeft_eight_lor (a b : Nat) (hb : b < 256) :
    a <<< 8 ||| b = 256 * a + b := by
  rw [Nat.shiftLeft_eq, Nat.mul_comm,
    ← Nat.mul_add_lt_is_or (show b < 2 ^ 8 by omega) a]

/-- C8: on an ISO14443A record `[tagnum, s1, s2, sel, N, id(N bytes), M,
ats...]`, `sens_res` is the big-endian 16-bit value of bytes 1–2, `sel_res`
is byte 3, the NFCID length is byte 4, the NFCID is bytes `5..5+N`, the ATS
length is byte `5+N`, and the record length used to advance the cursor is
`N + M + 4`. -/
theorem iso14443a_record_fields (tagnum s1 s2 sel m : Nat)
    (idBytes rest d : List Nat) (hs2 : s2 < 256)
    (hd : d = tagnum :: s1 :: s2 :: sel :: idBytes.length ::
      (idBytes ++ m :: rest)) :
    ISO14443A.sens_res d = 256 * s1 + s2 ∧
    ISO14443A.sel_res d = sel ∧
    ISO14443A.id_len d = idBytes.length ∧
    ISO14443A.id d = idBytes ∧
    ISO14443A.ats_len d = m ∧
    ISO14443A.len d = idBytes.length + m + 4 ∧
    Tag.next ISO14443A.len ⟨d, false⟩
      = some ⟨d.drop (idBytes.length + m + 4), true⟩ := by
  subst hd
  have hidlen : ISO14443A.id_len (tagnum :: s1 :: s2 :: sel ::
      idBytes.length :: (idBytes ++ m :: rest)) = idBytes.length := rfl
  have hats : ISO14443A.ats_len (tagnum :: s1 :: s2 :: sel ::
      idBytes.length :: (idBytes ++ m :: rest)) = m := by
    unfold ISO14443A.ats_len
    rw [hidlen]
    rw [show (tagnum :: s1 :: s2 :: sel :: idBytes.length :: (idBytes ++ m :: rest))
        = ([tagnum, s1, s2, sel, idBytes.length] ++ idBytes) ++ m :: rest from by simp]
    rw [List.getD_append_right _ _ _ _ (by
      simp only [List.length_append, List.length_cons, List.length_nil]
      omega)]
    have h0 : 5 + idBytes.length
        - ([tagnum, s1, s2, sel, idBytes.length] ++ idBytes).length = 0 := by
      simp only [List.length_append, List.length_cons, List.length_nil]
      omega
    rw [h0]
    rfl
  have hlen : ISO14443A.len (tagnum :: s1 :: s2 :: sel ::
      idBytes.length :: (idBytes ++ m :: rest)) = idBytes.length + m + 4 := by
    unfold ISO14443A.len
    rw [hidlen, hats]
  refine ⟨?_, rfl, hidlen, ?_, hats, hlen, ?_⟩
  · exact shiftLeft_eight_lor s1 s2 hs2
  · unfold ISO14443A.id
    rw [hidlen]
    show (idBytes ++ m :: rest).take idBytes.length = idBytes
    exact List.take_left' rfl
  · unfold Tag.next
    rw [if_neg (by simp)]
    unfold tagResponseNext
    rw [hlen]

/-- Witness for C8 at a concrete two-byte-NFCID record. -/
theorem iso14443a_record_fields_witness :
    ISO14443A.sens_res [1, 18, 52, 32, 2, 170, 187, 2, 117, 153] = 4660 ∧
    ISO14443A.len [1, 18, 52, 32, 2, 170, 187, 2, 117, 153] = 8 ∧
    ISO14443A.id [1, 18, 52, 32, 2, 170, 187, 2, 117, 153] = [170, 187] := by
  have h := iso14443a_record_fields 1 18 52 32 2 [170, 187] [117, 153]
    [1, 18, 52, 32, 2, 170, 187, 2, 117, 153] (by omega) rfl
  refine ⟨by simpa using h.1, by simpa using h.2.2.2.2.2.1, h.2.2.2.1⟩

set_option maxRecDepth 4000 in
/-- C9: the two snapshots of the ISO14443A list-options encoder disagree.
With a present resume-UID (here `[42]`, limit 1, a 255-byte buffer), both
write the same bytes, but `device/mod.rs`'s arm reports encoded length
`to_copy + 1 = 2` while `tags_internal.rs` reports `to_copy + 2 = 3`; with
no UID the two agree completely. -/
theorem fill_buf_snapshots_diverge :
    (ListTagData.fill_buf_ISO14443A 1 (some [42]) (List.replicate 255 0)).2 = 2 ∧
    (ISO14443AListOptions.fill_buf 1 (some [42]) (List.replicate 255 0)).2 = 3 ∧
    (ListTagData.fill_buf_ISO14443A 1 (some [42]) (List.replicate 255 0)).1
      = (ISO14443AListOptions.fill_buf 1 (some [42]) (List.replicate 255 0)).1 ∧
    ListTagData.fill_buf_ISO14443A 1 none (List.replicate 255 0)
      = ISO14443AListOptions.fill_buf 1 none (List.replicate 255 0) := by
  exact ⟨rfl, rfl, rfl, rfl⟩

end PN532
